import Mathlib

/-!
Verification of the HTTP request handler core
(`src/packages/server/src/http/requestHandler.ts`).

The pipeline is shallowly embedded: JavaScript values flowing through the
handler become a `JsonValue` inductive; `undefined` becomes `Option`;
thrown exceptions become `Except Thrown`; external collaborators
(context factory, procedure registry, error shaper, transformer, hooks,
the built-in JSON parser) become function-valued fields of the option
records, exactly as they are injected in the source.  Repository code that
is imported by the handler but not part of the analysed sources
(`getErrorFromUnknown`, `getHTTPStatusCode`, `transformTRPCResponse`,
the `TRPCError` class) is modelled from the specification and marked as
such in its doc comment.
-/

/-- Error taxonomy codes carried by a `TRPCError` (spec section 7). -/
inductive ErrorCode where
  | parseError
  | badRequest
  | methodNotSupported
  | notFound
  | unauthorized
  | internalServerError
  | custom (tag : String)
deriving DecidableEq

/-- Modelled from the spec: the `TRPCError` class
(`src/packages/server/src/TRPCError.ts` is not under the analysed sources).
It carries a taxonomy code, a message and the preserved original error. -/
structure TRPCError where
  code : ErrorCode
  message : String
  originalError : Option String
deriving DecidableEq

/-- A thrown JavaScript value: either an already-tagged `TRPCError` or a
plain error (anything else), identified by its message. -/
inductive Thrown where
  | trpc (e : TRPCError)
  | plain (msg : String)
deriving DecidableEq

/-- JSON-like runtime values (results of `JSON.parse`, structured bodies,
procedure outputs).  `undefined` is represented by `Option JsonValue`
outside this type, keeping the absent / present-null distinction. -/
inductive JsonValue where
  | null
  | bool (b : Bool)
  | num (n : Int)
  | str (s : String)
  | arr (elems : List JsonValue)
  | obj (fields : List (String × JsonValue))

/-- The opaque per-request context value produced by `createContext`. -/
abbrev Ctx := Nat

/-- Procedure kinds (`ProcedureType` in the source). -/
inductive ProcedureType where
  | query
  | mutation
  | subscription
  | unknown
deriving DecidableEq

/-- The on-wire error representation produced by the external
`router.getErrorShape` collaborator; per spec section 4.4 the response
status is derived from the shaped error's taxonomy kind, so the kind is a
field of the shape. -/
structure ShapedError where
  code : ErrorCode
  data : JsonValue

/-- One response envelope: `TRPCResultResponse` (`{id: null, result:
{type: "data", data}}`) or `TRPCErrorResponse` (`{id: null, error}`). -/
inductive TRPCResponseEnvelope where
  | result (data : JsonValue)
  | error (err : ShapedError)

/-- `TRouterResponse | TRouterResponse[]`: a single envelope for plain
calls, an ordered envelope list for batch calls. -/
inductive ResponseBody where
  | single (e : TRPCResponseEnvelope)
  | batch (es : List TRPCResponseEnvelope)

/-- The request body as seen by the handler: absent, a raw string still to
be JSON-parsed, or an already-structured value. -/
inductive BodyVal where
  | undef
  | str (s : String)
  | json (v : JsonValue)

/-- The `HTTPRequest` record consumed by `requestHandlerInner`. -/
structure HTTPRequest where
  method : String
  headers : List (String × String)
  query : List (String × String)
  body : BodyVal

/-- The `HTTPResponse` record produced by `requestHandlerInner`.  The body
is kept structured (the envelope data just before `JSON.stringify`). -/
structure HTTPResponse where
  status : Nat
  headers : List (String × String)
  body : Option ResponseBody

/-- Details passed to the `onError` observability hook. -/
structure OnErrorArgs where
  error : TRPCError
  path : Option String
  input : Option JsonValue
  ctx : Option Ctx
  type : ProcedureType
  req : HTTPRequest

/-- Argument record of the `responseMeta` hook. -/
structure ResponseMetaArgs where
  ctx : Option Ctx
  paths : Option (List String)
  type : ProcedureType
  data : List TRPCResponseEnvelope
  errors : List TRPCError

/-- Result of the `responseMeta` hook: extra headers and an optional
status override (a JavaScript `number | undefined`). -/
structure ResponseMetaResult where
  headers : List (String × String)
  status : Option Nat

/-- The pluggable value transformer (spec section 6): input
deserialization may throw; output serialization is pure. -/
structure TransformerPair where
  deserialize : JsonValue → Except Thrown JsonValue
  serialize : JsonValue → JsonValue

/-- The router as seen by the handler: its transformer, its error shaper
and the procedure execution engine `callProcedure` (all external
collaborators, spec section 6). -/
structure RouterM where
  transformer : TransformerPair
  getErrorShape : TRPCError → ProcedureType → Option String → Option JsonValue → Option Ctx → ShapedError
  callProcedure : Ctx → String → Option JsonValue → ProcedureType → Except Thrown JsonValue

/-- The `HTTPHandlerInnerOptions` record: request, route path, router,
configuration and the injected hooks.  `jsonParse` stands for the
JavaScript built-in `JSON.parse` (errors are the original error text). -/
structure Opts where
  router : RouterM
  req : HTTPRequest
  path : String
  batching : Option Bool
  createContext : Except Thrown Ctx
  onError : Option (OnErrorArgs → Except Thrown Unit)
  responseMeta : Option (ResponseMetaArgs → ResponseMetaResult)
  jsonParse : String → Except String JsonValue

/-- `opts.batching?.enabled ?? true`. -/
def batchingEnabled (o : Opts) : Bool :=
  o.batching.getD true

/-- `URLSearchParams.get`: the first value bound to the key, if any. -/
def queryGet (q : List (String × String)) (k : String) : Option String :=
  (q.find? (fun p => p.1 = k)).map (fun p => p.2)

/-- JavaScript `String.prototype.split(',')`, written structurally so that
it evaluates inside the kernel. -/
def splitCommaAux : List Char → List Char → List String
  | [], acc => [String.mk acc.reverse]
  | c :: cs, acc =>
    if c = ',' then String.mk acc.reverse :: splitCommaAux cs []
    else splitCommaAux cs (c :: acc)

/-- `path.split(',')`. -/
def splitComma (s : String) : List String :=
  splitCommaAux s.data []

/-- JavaScript object property assignment `m[k] = v`: replace the binding
in place if the key exists, otherwise append it. -/
def upsert : List (String × Option JsonValue) → String → Option JsonValue → List (String × Option JsonValue)
  | [], k, v => [(k, v)]
  | p :: ps, k, v => if p.1 = k then (k, v) :: ps else p :: upsert ps k v

/-- JavaScript header-object assignment `headers[k] = v`. -/
def setHeader : List (String × String) → String → String → List (String × String)
  | [], k, v => [(k, v)]
  | p :: ps, k, v => if p.1 = k then (k, v) :: ps else p :: setHeader ps k v

/-- Read a header value from a header object. -/
def lookupHeader (hs : List (String × String)) (k : String) : Option String :=
  (hs.find? (fun p => p.1 = k)).map (fun p => p.2)

/-- JavaScript `inputs[index]` on the input record: numeric access is
string-key access; a missing key reads as `undefined`. -/
def getInput (inputs : List (String × Option JsonValue)) (i : Nat) : Option JsonValue :=
  match inputs.find? (fun p => p.1 = toString i) with
  | some p => p.2
  | none => none

/-- Modelled from the spec: `getErrorFromUnknown`
(`src/packages/server/src/internals/errors.ts` is not under the analysed
sources).  Spec section 7: arbitrary errors are "passed through and
normalized, preserving kind if already tagged, defaulting otherwise" to
`INTERNAL_SERVER_ERROR`. -/
def getErrorFromUnknown : Thrown → TRPCError
  | .trpc e => e
  | .plain m => ⟨.internalServerError, m, some m⟩

/-- Modelled from the spec: the taxonomy-kind-to-HTTP-status table used by
`getHTTPStatusCode` (spec section 4.4: "bad input → 400, not found → 404,
unauthenticated → 401, internal → 500"). -/
def errorCodeStatus : ErrorCode → Nat
  | .parseError => 400
  | .badRequest => 400
  | .methodNotSupported => 405
  | .notFound => 404
  | .unauthorized => 401
  | .internalServerError => 500
  | .custom _ => 500

/-- Modelled from the spec: `getHTTPStatusCode`
(`src/packages/server/src/http/internals/getHTTPStatusCode.ts` is not
under the analysed sources).  Spec section 4.4: success maps to 200; a
single-call error maps from the error's taxonomy kind; a batch is 200 when
every call succeeds and otherwise takes the status of the first failing
call. -/
def getHTTPStatusCode : ResponseBody → Nat
  | .single (.result _) => 200
  | .single (.error e) => errorCodeStatus e.code
  | .batch es =>
    match es.findSome? (fun e => match e with
      | .error se => some se.code
      | .result _ => none) with
    | none => 200
    | some c => errorCodeStatus c

/-- Modelled from the spec: the per-envelope part of `transformTRPCResponse`
(`src/packages/server/src/internals/transformTRPCResponse.ts` is not under
the analysed sources).  Spec section 4.4: "Output payload is passed through
the transformer's output-serialization step before being stringified". -/
def transformEnvelope (r : RouterM) : TRPCResponseEnvelope → TRPCResponseEnvelope
  | .result d => .result (r.transformer.serialize d)
  | .error e => .error e

/-- Modelled from the spec: `transformTRPCResponse`, applied to the single
envelope or to every envelope of a batch. -/
def transformTRPCResponse (r : RouterM) : ResponseBody → ResponseBody
  | .single e => .single (transformEnvelope r e)
  | .batch es => .batch (es.map (transformEnvelope r))

/-- `HTTP_METHOD_PROCEDURE_TYPE_MAP`: GET → query, POST → mutation,
PATCH → subscription; other methods are not in the record. -/
def HTTP_METHOD_PROCEDURE_TYPE_MAP (m : String) : Option ProcedureType :=
  if m = "GET" then some .query
  else if m = "POST" then some .mutation
  else if m = "PATCH" then some .subscription
  else none

/-- `HTTP_METHOD_PROCEDURE_TYPE_MAP[req.method] ?? 'unknown'`. -/
def procTypeOf (m : String) : ProcedureType :=
  (HTTP_METHOD_PROCEDURE_TYPE_MAP m).getD .unknown

/-- `req.query.get('batch') === '1'`. -/
def isBatchCall (o : Opts) : Bool :=
  decide (queryGet o.req.query "batch" = some "1")

/-- Wrap a `JSON.parse` outcome: parse failures become a `PARSE_ERROR`
`TRPCError` preserving the original error. -/
def wrapParse (r : Except String JsonValue) : Except Thrown (Option JsonValue) :=
  match r with
  | .ok v => .ok (some v)
  | .error e => .error (.trpc ⟨.parseError, "", some e⟩)

/-- `getRawProcedureInputOrThrow` (source lines 47-63): GET reads the
`input` query parameter (absent parameter yields `undefined`, present
parameter is JSON-parsed); other methods JSON-parse a string body and pass
a structured body through; parse failures are wrapped as `PARSE_ERROR`. -/
def getRawProcedureInputOrThrow (jp : String → Except String JsonValue) (req : HTTPRequest) :
    Except Thrown (Option JsonValue) :=
  if req.method = "GET" then
    match queryGet req.query "input" with
    | none => .ok none
    | some raw => wrapParse (jp raw)
  else
    match req.body with
    | .str s => wrapParse (jp s)
    | .json v => .ok (some v)
    | .undef => .ok none

/-- `deserializeInputValue` (source lines 139-143): an `undefined` raw
value bypasses the transformer; any other value is deserialized. -/
def deserializeInputValue (tr : JsonValue → Except Thrown JsonValue) :
    Option JsonValue → Except Thrown (Option JsonValue)
  | none => .ok none
  | some v => (tr v).map some

/-- Is the raw input of an acceptable shape for a batch call?  True only
for a non-null, non-array object (`rawInput == null`, `typeof rawInput
!== 'object'` and `Array.isArray(rawInput)` all reject). -/
def isBatchObjShape : Option JsonValue → Bool
  | some (.obj _) => true
  | _ => false

/-- The body of the `for key in rawInput` loop (source lines 162-169):
deserialize the value at one own-property key and assign it to the input
record under the unchanged key (`key as any as number` is a compile-time
cast only; no runtime conversion or validation of the key happens). -/
def batchStep (tr : JsonValue → Except Thrown JsonValue)
    (acc : List (String × Option JsonValue)) (kv : String × JsonValue) :
    Except Thrown (List (String × Option JsonValue)) :=
  (deserializeInputValue tr (some kv.2)).map (fun v => upsert acc kv.1 v)

/-- `getInputs` (source lines 144-171): a single call deserializes the
whole raw input under key `0`; a batch call requires a non-null non-array
object and deserializes the value at each own-property key, storing it
under the unchanged key. -/
def getInputs (o : Opts) (rawInput : Option JsonValue) :
    Except Thrown (List (String × Option JsonValue)) :=
  if !isBatchCall o then
    (deserializeInputValue o.router.transformer.deserialize rawInput).map
      (fun v => [("0", v)])
  else
    match rawInput with
    | some (.obj fields) =>
      fields.foldlM (batchStep o.router.transformer.deserialize) []
    | _ =>
      .error (.trpc ⟨.badRequest,
        "\"input\" needs to be an object when doing a batch call", none⟩)

/-- `onError?.(args)`: invoke the hook when present; the returned list
records the invocation (for the observability statements). -/
def invokeOnError (o : Opts) (a : OnErrorArgs) : Except Thrown Unit × List OnErrorArgs :=
  match o.onError with
  | none => (.ok (), [])
  | some f => (f a, [a])

/-- The invocation record `invokeOnError` produces for given arguments. -/
def hookLog (o : Opts) (a : OnErrorArgs) : List OnErrorArgs :=
  match o.onError with
  | none => []
  | some _ => [a]

/-- Per-call outcome collected by the dispatcher: `{path, input}` plus
either `data` or a normalized `error`. -/
structure CallResult where
  path : String
  input : Option JsonValue
  outcome : Except TRPCError JsonValue

/-- One task of the `Promise.all` fan-out (source lines 174-199): invoke
the procedure; on failure, normalize the error, report it to `onError`,
and fold it into the call's own outcome.  A throw from the `onError` hook
itself rejects the task. -/
def runCall (o : Opts) (T : ProcedureType) (c : Ctx)
    (inputs : List (String × Option JsonValue)) (path : String) (i : Nat) :
    Except Thrown CallResult × List OnErrorArgs :=
  match o.router.callProcedure c path (getInput inputs i) T with
  | .ok output => (.ok ⟨path, getInput inputs i, .ok output⟩, [])
  | .error t =>
    match invokeOnError o
        ⟨getErrorFromUnknown t, some path, getInput inputs i, some c, T, o.req⟩ with
    | (.ok _, l) => (.ok ⟨path, getInput inputs i, .error (getErrorFromUnknown t)⟩, l)
    | (.error t2, l) => (.error t2, l)

/-- Project the first rejection out of the task results (`Promise.all`
rejects when any task rejects; sibling tasks still run to completion). -/
def firstCallError (l : List (Except Thrown CallResult)) : Option Thrown :=
  l.findSome? (fun e => match e with
    | .error t => some t
    | .ok _ => none)

/-- Collect fulfilled task payloads. -/
def collectOks (l : List (Except Thrown CallResult)) : List CallResult :=
  l.filterMap (fun e => match e with
    | .ok r => some r
    | .error _ => none)

/-- The task list launched by the fan-out: one `runCall` per path, in
path order, carrying its positional index. -/
def taskResults (o : Opts) (T : ProcedureType) (c : Ctx)
    (inputs : List (String × Option JsonValue)) (paths : List String) :
    List (Except Thrown CallResult × List OnErrorArgs) :=
  paths.enum.map (fun pi => runCall o T c inputs pi.2 pi.1)

/-- All hook invocations performed by the fan-out (every task runs to
completion; a rejection does not cancel siblings). -/
def dispatchLog (o : Opts) (T : ProcedureType) (c : Ctx)
    (inputs : List (String × Option JsonValue)) (paths : List String) :
    List OnErrorArgs :=
  ((taskResults o T c inputs paths).map Prod.snd).flatten

/-- `Promise.all(paths.map(...))` (source lines 173-200): run every call,
keep every hook invocation, and either reject with the first task
rejection or fulfil with all call results in path order. -/
def dispatchCalls (o : Opts) (T : ProcedureType) (c : Ctx)
    (inputs : List (String × Option JsonValue)) (paths : List String) :
    Except Thrown (List CallResult) × List OnErrorArgs :=
  match firstCallError ((taskResults o T c inputs paths).map Prod.fst) with
  | some t => (.error t, dispatchLog o T c inputs paths)
  | none =>
    (.ok (collectOks ((taskResults o T c inputs paths).map Prod.fst)),
     dispatchLog o T c inputs paths)

/-- `rawResults.flatMap((obj) => (obj.error ? [obj.error] : []))`
(source line 201). -/
def errorsOf (results : List CallResult) : List TRPCError :=
  results.filterMap (fun cr => match cr.outcome with
    | .error e => some e
    | .ok _ => none)

/-- `resultEnvelopes` construction for one call (source lines 202-227). -/
def envelopeOf (o : Opts) (T : ProcedureType) (c : Ctx) (cr : CallResult) :
    TRPCResponseEnvelope :=
  match cr.outcome with
  | .ok data => .result data
  | .error e => .error (o.router.getErrorShape e T (some cr.path) cr.input (some c))

/-- The argument list of a batch `responseMeta` call
(`Array.isArray(untransformedJSON) ? untransformedJSON :
[untransformedJSON]`). -/
def dataList : ResponseBody → List TRPCResponseEnvelope
  | .single e => [e]
  | .batch es => es

/-- `opts.responseMeta?.({...}) ?? {}` (source lines 95-104). -/
def metaOf (o : Opts) (T : ProcedureType) (c : Option Ctx)
    (paths : Option (List String)) (untransformed : ResponseBody)
    (errors : List TRPCError) : ResponseMetaResult :=
  match o.responseMeta with
  | none => ⟨[], none⟩
  | some f => f ⟨c, paths, T, dataList untransformed, errors⟩

/-- `endResponse` (source lines 86-122): derive the status from the
envelopes, start from the default `Content-Type` header, let the
`responseMeta` hook merge extra headers (assignment, so the hook wins on
collision) and override the status when it returns a truthy one
(`if (meta.status)`, so a status of `0` does not override), then
transform and emit the body. -/
def endResponse (o : Opts) (T : ProcedureType) (c : Option Ctx)
    (paths : Option (List String)) (untransformed : ResponseBody)
    (errors : List TRPCError) : HTTPResponse :=
  ⟨(match (metaOf o T c paths untransformed errors).status with
    | some s => if s = 0 then getHTTPStatusCode untransformed else s
    | none => getHTTPStatusCode untransformed),
   (metaOf o T c paths untransformed errors).headers.foldl
     (fun hs kv => setHeader hs kv.1 kv.2) [("Content-Type", "application/json")],
   some (transformTRPCResponse o.router untransformed)⟩

/-- The outer `catch` block of `requestHandlerInner` (source lines
231-258): normalize the thrown value, shape it with `path: undefined` and
`input: undefined`, report it to `onError`, and answer with that single
top-level error envelope.  A throw from the hook escapes the handler. -/
def handleError (o : Opts) (T : ProcedureType) (c : Option Ctx)
    (paths : Option (List String)) (t : Thrown) :
    Except Thrown HTTPResponse × List OnErrorArgs :=
  match invokeOnError o ⟨getErrorFromUnknown t, none, none, c, T, o.req⟩ with
  | (.ok _, l) =>
    (.ok (endResponse o T c paths
      (.single (.error
        (o.router.getErrorShape (getErrorFromUnknown t) T none none c)))
      [getErrorFromUnknown t]), l)
  | (.error t2, l) => (.error t2, l)

/-- Path splitting (source line 136): `isBatchCall ? opts.path.split(',')
: [opts.path]`. -/
def pathsOf (o : Opts) : List String :=
  if isBatchCall o then splitComma o.path else [o.path]

/-- The request-level gates of `requestHandlerInner` (source lines
125-172), in source order: batching-disabled check, method-kind check,
raw input extraction, path splitting, context construction, input
resolution.  A failing gate reports the thrown value together with the
values the mutable `ctx` and `paths` variables hold at that point. -/
def gatePhase (o : Opts) (T : ProcedureType) :
    Except (Thrown × Option Ctx × Option (List String))
      (Ctx × List String × List (String × Option JsonValue)) :=
  if isBatchCall o && !batchingEnabled o then
    .error (.plain "Batching is not enabled on the server", none, none)
  else if T = .unknown ∨ T = .subscription then
    .error (.trpc ⟨.methodNotSupported,
      "Unexpected request method " ++ o.req.method, none⟩, none, none)
  else
    match getRawProcedureInputOrThrow o.jsonParse o.req with
    | .error t => .error (t, none, none)
    | .ok rawInput =>
      match o.createContext with
      | .error t => .error (t, none, some (pathsOf o))
      | .ok c =>
        match getInputs o rawInput with
        | .error t => .error (t, some c, some (pathsOf o))
        | .ok inputs => .ok (c, pathsOf o, inputs)

/-- `isBatchCall ? resultEnvelopes : resultEnvelopes[0]` (source line
229): a batch answers with the ordered envelope list, a plain call with
the first (and only) envelope.  `paths` is never empty, so the `headD`
default is unreachable. -/
def shapeResult (o : Opts) (envelopes : List TRPCResponseEnvelope) : ResponseBody :=
  if isBatchCall o then .batch envelopes
  else .single (envelopes.headD (.result .null))

/-- `requestHandlerInner` (source lines 65-259).  The pair's second
component records every `onError` invocation. -/
def requestHandlerInner (o : Opts) : Except Thrown HTTPResponse × List OnErrorArgs :=
  if o.req.method = "HEAD" then
    (.ok ⟨204, [], none⟩, [])
  else
    match gatePhase o (procTypeOf o.req.method) with
    | .error (t, c, paths) => handleError o (procTypeOf o.req.method) c paths t
    | .ok (c, paths, inputs) =>
      match dispatchCalls o (procTypeOf o.req.method) c inputs paths with
      | (.error t, log) =>
        ((handleError o (procTypeOf o.req.method) (some c) (some paths) t).1,
         log ++ (handleError o (procTypeOf o.req.method) (some c) (some paths) t).2)
      | (.ok results, log) =>
        (.ok (endResponse o (procTypeOf o.req.method) (some c) (some paths)
          (shapeResult o (results.map (envelopeOf o (procTypeOf o.req.method) c)))
          (errorsOf results)), log)

/-- All the hooks a well-behaved deployment provides: the `onError`
observability hook, when present, never throws (spec section 6 declares it
fire-and-forget).  Claims about the normal pipeline assume this
collaborator contract. -/
def OnErrorOk (o : Opts) : Prop :=
  ∀ a, (invokeOnError o a).1 = .ok ()

/-- Replace the injected procedure execution engine, leaving every other
option untouched.  A response that is invariant under this replacement was
produced without invoking any procedure. -/
def withCallProcedure (o : Opts)
    (cp : Ctx → String → Option JsonValue → ProcedureType → Except Thrown JsonValue) :
    Opts :=
  { o with router := { o.router with callProcedure := cp } }

/-- The outcome one call folds into its result: the procedure's output on
success, the normalized error on failure. -/
def callOutcome (o : Opts) (T : ProcedureType) (c : Ctx)
    (input : Option JsonValue) (path : String) : Except TRPCError JsonValue :=
  match o.router.callProcedure c path input T with
  | .ok d => .ok d
  | .error t => .error (getErrorFromUnknown t)

/-- The per-call results the dispatcher collects when every task fulfils:
one result per path, in path order, each reading its input at its own
positional index. -/
def dispatchResults (o : Opts) (T : ProcedureType) (c : Ctx)
    (inputs : List (String × Option JsonValue)) (paths : List String) :
    List CallResult :=
  paths.enum.map (fun pi =>
    ⟨pi.2, getInput inputs pi.1, callOutcome o T c (getInput inputs pi.1) pi.2⟩)

/-- The envelope list built from the dispatcher's results. -/
def dispatchEnvelopes (o : Opts) (T : ProcedureType) (c : Ctx)
    (inputs : List (String × Option JsonValue)) (paths : List String) :
    List TRPCResponseEnvelope :=
  (dispatchResults o T c inputs paths).map (envelopeOf o T c)


/-! ## Helper lemmas -/

theorem invokeOnError_snd (o : Opts) (a : OnErrorArgs) :
    (invokeOnError o a).2 = hookLog o a := by
  unfold invokeOnError hookLog
  cases o.onError <;> rfl

theorem invokeOnError_eq_of_ok {o : Opts} (h : OnErrorOk o) (a : OnErrorArgs) :
    invokeOnError o a = (.ok (), hookLog o a) := by
  have h1 := h a
  have h2 := invokeOnError_snd o a
  cases hi : invokeOnError o a with
  | mk r l =>
    rw [hi] at h1 h2
    simp only at h1 h2
    rw [h1, h2]

theorem runCall_fst_ok {o : Opts} (h : OnErrorOk o) (T : ProcedureType) (c : Ctx)
    (inputs : List (String × Option JsonValue)) (path : String) (i : Nat) :
    (runCall o T c inputs path i).1 =
      .ok ⟨path, getInput inputs i, callOutcome o T c (getInput inputs i) path⟩ := by
  unfold runCall callOutcome
  cases hc : o.router.callProcedure c path (getInput inputs i) T with
  | ok d => rfl
  | error t =>
    simp only [invokeOnError_eq_of_ok h]

theorem taskResults_fst_ok {o : Opts} (h : OnErrorOk o) (T : ProcedureType) (c : Ctx)
    (inputs : List (String × Option JsonValue)) (paths : List String) :
    (taskResults o T c inputs paths).map Prod.fst =
      (dispatchResults o T c inputs paths).map Except.ok := by
  unfold taskResults dispatchResults
  rw [List.map_map, List.map_map]
  congr 1
  funext pi
  exact runCall_fst_ok h T c inputs pi.2 pi.1

theorem firstCallError_map_ok (l : List CallResult) :
    firstCallError (l.map Except.ok) = none := by
  induction l with
  | nil => rfl
  | cons a l ih =>
    simp [firstCallError, List.findSome?_cons] at ih ⊢

theorem collectOks_map_ok (l : List CallResult) :
    collectOks (l.map Except.ok) = l := by
  induction l with
  | nil => rfl
  | cons a l ih =>
    simpa [collectOks, List.filterMap_cons] using ih

theorem dispatchCalls_ok {o : Opts} (h : OnErrorOk o) (T : ProcedureType) (c : Ctx)
    (inputs : List (String × Option JsonValue)) (paths : List String) :
    dispatchCalls o T c inputs paths =
      (.ok (dispatchResults o T c inputs paths), dispatchLog o T c inputs paths) := by
  unfold dispatchCalls
  rw [taskResults_fst_ok h, firstCallError_map_ok, collectOks_map_ok]

theorem handleError_ok {o : Opts} (h : OnErrorOk o) (T : ProcedureType)
    (c : Option Ctx) (paths : Option (List String)) (t : Thrown) :
    handleError o T c paths t =
      (.ok (endResponse o T c paths
        (.single (.error
          (o.router.getErrorShape (getErrorFromUnknown t) T none none c)))
        [getErrorFromUnknown t]),
       hookLog o ⟨getErrorFromUnknown t, none, none, c, T, o.req⟩) := by
  unfold handleError
  rw [invokeOnError_eq_of_ok h]

theorem handleError_fst_ok {o : Opts} {T : ProcedureType} {c : Option Ctx}
    {paths : Option (List String)} {t : Thrown} {r : HTTPResponse}
    (h : (handleError o T c paths t).1 = .ok r) :
    r = endResponse o T c paths
        (.single (.error
          (o.router.getErrorShape (getErrorFromUnknown t) T none none c)))
        [getErrorFromUnknown t] := by
  unfold handleError at h
  cases hi : invokeOnError o ⟨getErrorFromUnknown t, none, none, c, T, o.req⟩ with
  | mk r0 l =>
    rw [hi] at h
    cases r0 with
    | ok u => simp only at h; exact (Except.ok.inj h).symm
    | error t2 => simp only at h; exact absurd h (by simp)

theorem inner_gate_error {o : Opts} {t : Thrown} {c : Option Ctx}
    {paths : Option (List String)} (hm : o.req.method ≠ "HEAD")
    (hg : gatePhase o (procTypeOf o.req.method) = .error (t, c, paths)) :
    requestHandlerInner o = handleError o (procTypeOf o.req.method) c paths t := by
  unfold requestHandlerInner
  rw [if_neg hm, hg]

theorem inner_dispatch_ok {o : Opts} {c : Ctx} {paths : List String}
    {inputs : List (String × Option JsonValue)}
    (hm : o.req.method ≠ "HEAD")
    (hg : gatePhase o (procTypeOf o.req.method) = .ok (c, paths, inputs))
    (h : OnErrorOk o) :
    requestHandlerInner o =
      (.ok (endResponse o (procTypeOf o.req.method) (some c) (some paths)
        (shapeResult o (dispatchEnvelopes o (procTypeOf o.req.method) c inputs paths))
        (errorsOf (dispatchResults o (procTypeOf o.req.method) c inputs paths))),
       dispatchLog o (procTypeOf o.req.method) c inputs paths) := by
  unfold requestHandlerInner
  rw [if_neg hm]
  simp only [hg, dispatchCalls_ok h, dispatchEnvelopes]

theorem find?_setHeader_self (hs : List (String × String)) (k v : String) :
    (setHeader hs k v).find? (fun p => p.1 = k) = some (k, v) := by
  induction hs with
  | nil => simp [setHeader]
  | cons p ps ih =>
    by_cases hp : p.1 = k
    · simp [setHeader, hp]
    · simp [setHeader, hp, ih]

theorem find?_setHeader_ne (hs : List (String × String)) (k v : String)
    {q : String} (h : q ≠ k) :
    (setHeader hs k v).find? (fun p => p.1 = q) = hs.find? (fun p => p.1 = q) := by
  induction hs with
  | nil => simp [setHeader, Ne.symm h]
  | cons p ps ih =>
    by_cases hp : p.1 = k
    · rw [setHeader, if_pos hp]
      rw [List.find?_cons_of_neg _ (by simp [Ne.symm h]),
          List.find?_cons_of_neg _ (by simp [hp, Ne.symm h])]
    · rw [setHeader, if_neg hp]
      by_cases hpq : p.1 = q
      · rw [List.find?_cons_of_pos _ (by simp [hpq]),
            List.find?_cons_of_pos _ (by simp [hpq])]
      · rw [List.find?_cons_of_neg _ (by simp [hpq]),
            List.find?_cons_of_neg _ (by simp [hpq]), ih]

theorem lookupHeader_setHeader_self (hs : List (String × String)) (k v : String) :
    lookupHeader (setHeader hs k v) k = some v := by
  unfold lookupHeader
  rw [find?_setHeader_self]
  rfl

theorem lookupHeader_setHeader_ne (hs : List (String × String)) (k v : String)
    {q : String} (h : q ≠ k) :
    lookupHeader (setHeader hs k v) q = lookupHeader hs q := by
  unfold lookupHeader
  rw [find?_setHeader_ne hs k v h]

theorem lookupHeader_fold_not_mem :
    ∀ (H : List (String × String)) (hs : List (String × String)) (k : String),
      (∀ p ∈ H, p.1 ≠ k) →
      lookupHeader (H.foldl (fun a kv => setHeader a kv.1 kv.2) hs) k =
        lookupHeader hs k
  | [], _, _, _ => rfl
  | q :: H', hs, k, hk => by
    rw [List.foldl_cons]
    rw [lookupHeader_fold_not_mem H' _ k (fun p hp => hk p (List.mem_cons_of_mem q hp))]
    exact lookupHeader_setHeader_ne hs q.1 q.2
      (Ne.symm (hk q (List.mem_cons_self q H')))

theorem lookupHeader_fold_mem :
    ∀ (H : List (String × String)) (hs : List (String × String)) (k v : String),
      (H.map Prod.fst).Nodup → (k, v) ∈ H →
      lookupHeader (H.foldl (fun a kv => setHeader a kv.1 kv.2) hs) k = some v
  | [], _, _, _, _, hmem => absurd hmem (List.not_mem_nil _)
  | ⟨qk, qv⟩ :: H', hs, k, v, hnd, hmem => by
    rw [List.map_cons, List.nodup_cons] at hnd
    rw [List.foldl_cons]
    rcases List.mem_cons.mp hmem with hq | hmem'
    · injection hq with h1 h2
      subst h1
      subst h2
      rw [lookupHeader_fold_not_mem H' _ k (by
        intro p hp hpk
        apply hnd.1
        show k ∈ List.map Prod.fst H'
        rw [← hpk]
        exact List.mem_map_of_mem Prod.fst hp)]
      exact lookupHeader_setHeader_self hs k v
    · exact lookupHeader_fold_mem H' _ k v hnd.2 hmem'

theorem find?_upsert_self (l : List (String × Option JsonValue)) (k : String)
    (v : Option JsonValue) :
    (upsert l k v).find? (fun p => p.1 = k) = some (k, v) := by
  induction l with
  | nil => simp [upsert]
  | cons p ps ih =>
    by_cases hp : p.1 = k
    · simp [upsert, hp]
    · simp [upsert, hp, ih]

theorem find?_upsert_ne (l : List (String × Option JsonValue)) (k : String)
    (v : Option JsonValue) {q : String} (h : q ≠ k) :
    (upsert l k v).find? (fun p => p.1 = q) = l.find? (fun p => p.1 = q) := by
  induction l with
  | nil => simp [upsert, Ne.symm h]
  | cons p ps ih =>
    by_cases hp : p.1 = k
    · rw [upsert, if_pos hp]
      rw [List.find?_cons_of_neg _ (by simp [Ne.symm h]),
          List.find?_cons_of_neg _ (by simp [hp, Ne.symm h])]
    · rw [upsert, if_neg hp]
      by_cases hpq : p.1 = q
      · rw [List.find?_cons_of_pos _ (by simp [hpq]),
            List.find?_cons_of_pos _ (by simp [hpq])]
      · rw [List.find?_cons_of_neg _ (by simp [hpq]),
            List.find?_cons_of_neg _ (by simp [hpq]), ih]

theorem except_bind_ok {α β : Type} {x : Except Thrown α} {f : α → Except Thrown β}
    {b : β} (h : x >>= f = .ok b) : ∃ a, x = .ok a ∧ f a = .ok b := by
  cases x with
  | ok a => exact ⟨a, rfl, h⟩
  | error e => simp [Bind.bind, Except.bind] at h

theorem batchStep_ok_inv {tr : JsonValue → Except Thrown JsonValue}
    {acc acc' : List (String × Option JsonValue)} {kv : String × JsonValue}
    (h : batchStep tr acc kv = .ok acc') :
    ∃ w, tr kv.2 = .ok w ∧ acc' = upsert acc kv.1 (some w) := by
  simp only [batchStep, deserializeInputValue] at h
  cases htr : tr kv.2 with
  | ok w =>
    rw [htr] at h
    simp [Except.map] at h
    exact ⟨w, rfl, h.symm⟩
  | error t =>
    rw [htr] at h
    simp [Except.map] at h

theorem foldlM_batchStep_find_none :
    ∀ (fields : List (String × JsonValue)) (tr : JsonValue → Except Thrown JsonValue)
      (acc out : List (String × Option JsonValue)) (k : String),
      (∀ kv ∈ fields, kv.1 ≠ k) →
      fields.foldlM (batchStep tr) acc = .ok out →
      acc.find? (fun p => p.1 = k) = none →
      out.find? (fun p => p.1 = k) = none
  | [], _, acc, out, k, _, hfold, hacc => by
    rw [List.foldlM_nil] at hfold
    cases hfold
    exact hacc
  | kv :: fs, tr, acc, out, k, hk, hfold, hacc => by
    rw [List.foldlM_cons] at hfold
    obtain ⟨acc', hstep, hrest⟩ := except_bind_ok hfold
    obtain ⟨w, _, hup⟩ := batchStep_ok_inv hstep
    subst hup
    refine foldlM_batchStep_find_none fs tr _ out k
      (fun p hp => hk p (List.mem_cons_of_mem kv hp)) hrest ?_
    rw [find?_upsert_ne acc kv.1 (some w)
      (Ne.symm (hk kv (List.mem_cons_self kv fs)))]
    exact hacc

theorem foldlM_batchStep_find_some :
    ∀ (fields : List (String × JsonValue)) (tr : JsonValue → Except Thrown JsonValue)
      (acc out : List (String × Option JsonValue)) (k : String)
      (x : String × Option JsonValue),
      (∀ kv ∈ fields, kv.1 ≠ k) →
      fields.foldlM (batchStep tr) acc = .ok out →
      acc.find? (fun p => p.1 = k) = some x →
      out.find? (fun p => p.1 = k) = some x
  | [], _, acc, out, k, x, _, hfold, hacc => by
    rw [List.foldlM_nil] at hfold
    cases hfold
    exact hacc
  | kv :: fs, tr, acc, out, k, x, hk, hfold, hacc => by
    rw [List.foldlM_cons] at hfold
    obtain ⟨acc', hstep, hrest⟩ := except_bind_ok hfold
    obtain ⟨w, _, hup⟩ := batchStep_ok_inv hstep
    subst hup
    refine foldlM_batchStep_find_some fs tr _ out k x
      (fun p hp => hk p (List.mem_cons_of_mem kv hp)) hrest ?_
    rw [find?_upsert_ne acc kv.1 (some w)
      (Ne.symm (hk kv (List.mem_cons_self kv fs)))]
    exact hacc

theorem foldlM_batchStep_mem :
    ∀ (fields : List (String × JsonValue)) (tr : JsonValue → Except Thrown JsonValue)
      (acc out : List (String × Option JsonValue)) (kv : String × JsonValue),
      (fields.map Prod.fst).Nodup → kv ∈ fields →
      fields.foldlM (batchStep tr) acc = .ok out →
      ∃ w, tr kv.2 = .ok w ∧
        out.find? (fun p => p.1 = kv.1) = some (kv.1, some w)
  | [], _, _, _, _, _, hmem, _ => absurd hmem (List.not_mem_nil _)
  | hd :: fs, tr, acc, out, kv, hnd, hmem, hfold => by
    rw [List.map_cons, List.nodup_cons] at hnd
    rw [List.foldlM_cons] at hfold
    obtain ⟨acc', hstep, hrest⟩ := except_bind_ok hfold
    obtain ⟨w, htr, hup⟩ := batchStep_ok_inv hstep
    subst hup
    rcases List.mem_cons.mp hmem with hq | hmem'
    · subst hq
      refine ⟨w, htr, ?_⟩
      refine foldlM_batchStep_find_some fs tr _ out kv.1 (kv.1, some w) (by
        intro p hp hpk
        apply hnd.1
        rw [← hpk]
        exact List.mem_map_of_mem Prod.fst hp) hrest ?_
      exact find?_upsert_self acc kv.1 (some w)
    · exact foldlM_batchStep_mem fs tr _ out kv hnd.2 hmem' hrest

theorem foldlM_batchStep_total :
    ∀ (fields : List (String × JsonValue)) (tr : JsonValue → Except Thrown JsonValue)
      (acc : List (String × Option JsonValue)),
      (∀ kv ∈ fields, ∃ w, tr kv.2 = .ok w) →
      ∃ out, fields.foldlM (batchStep tr) acc = .ok out
  | [], _, acc, _ => ⟨acc, rfl⟩
  | kv :: fs, tr, acc, h => by
    obtain ⟨w, hw⟩ := h kv (List.mem_cons_self kv fs)
    obtain ⟨out, hout⟩ := foldlM_batchStep_total fs tr (upsert acc kv.1 (some w))
      (fun p hp => h p (List.mem_cons_of_mem kv hp))
    refine ⟨out, ?_⟩
    rw [List.foldlM_cons]
    have hstep : batchStep tr acc kv = .ok (upsert acc kv.1 (some w)) := by
      simp only [batchStep, deserializeInputValue]
      rw [hw]
      rfl
    rw [hstep]
    exact hout

theorem getInputs_batch_not_obj {o : Opts} (hb : isBatchCall o = true)
    {rv : Option JsonValue} (hshape : isBatchObjShape rv = false) :
    getInputs o rv = .error (.trpc ⟨.badRequest,
      "\"input\" needs to be an object when doing a batch call", none⟩) := by
  unfold getInputs
  rw [hb]
  cases rv with
  | none => rfl
  | some v =>
    cases v with
    | obj fields => simp [isBatchObjShape] at hshape
    | null => rfl
    | bool b => rfl
    | num n => rfl
    | str s => rfl
    | arr elems => rfl

theorem getInputs_batch_obj {o : Opts} (hb : isBatchCall o = true)
    (fields : List (String × JsonValue)) :
    getInputs o (some (.obj fields)) =
      fields.foldlM (batchStep o.router.transformer.deserialize) [] := by
  unfold getInputs
  rw [hb]
  rfl

theorem getInput_of_find?_none {inputs : List (String × Option JsonValue)}
    {i : Nat} (h : inputs.find? (fun p => p.1 = toString i) = none) :
    getInput inputs i = none := by
  unfold getInput
  rw [h]

theorem gatePhase_ok_intro (o : Opts) (T : ProcedureType)
    {rv : Option JsonValue} {c : Ctx}
    {inputs : List (String × Option JsonValue)}
    (h1 : (isBatchCall o && !batchingEnabled o) = false)
    (h2 : ¬(T = .unknown ∨ T = .subscription))
    (h3 : getRawProcedureInputOrThrow o.jsonParse o.req = .ok rv)
    (h4 : o.createContext = .ok c)
    (h5 : getInputs o rv = .ok inputs) :
    gatePhase o T = .ok (c, pathsOf o, inputs) := by
  unfold gatePhase
  simp only [h1, h2, h3, h4, h5, Bool.false_eq_true, if_false, ite_false]

theorem gatePhase_ok_elim {o : Opts} {T : ProcedureType} {c : Ctx}
    {paths : List String} {inputs : List (String × Option JsonValue)}
    (h : gatePhase o T = .ok (c, paths, inputs)) :
    paths = pathsOf o ∧ o.createContext = .ok c ∧
      ∃ rv, getRawProcedureInputOrThrow o.jsonParse o.req = .ok rv ∧
        getInputs o rv = .ok inputs := by
  unfold gatePhase at h
  split at h
  · simp at h
  · split at h
    · simp at h
    · split at h
      · simp at h
      · next rv heq =>
        split at h
        · simp at h
        · next c' hctx =>
          split at h
          · simp at h
          · next inputs' hinp =>
            injection h with h'
            obtain ⟨hc, hp, hi⟩ : c' = c ∧ pathsOf o = paths ∧ inputs' = inputs := by
              simpa [Prod.ext_iff] using h'
            subst hc
            subst hi
            exact ⟨hp.symm, hctx, rv, heq, hinp⟩

theorem inner_ok_shape {o : Opts} {r : HTTPResponse}
    (hm : o.req.method ≠ "HEAD")
    (h : (requestHandlerInner o).1 = .ok r) :
    ∃ c paths body errs,
      r = endResponse o (procTypeOf o.req.method) c paths body errs := by
  unfold requestHandlerInner at h
  rw [if_neg hm] at h
  split at h
  · exact ⟨_, _, _, _, handleError_fst_ok h⟩
  · split at h
    · simp only at h
      exact ⟨_, _, _, _, handleError_fst_ok h⟩
    · simp only at h
      exact ⟨_, _, _, _, (Except.ok.inj h).symm⟩

theorem endResponse_status_override {o : Opts}
    {f : ResponseMetaArgs → ResponseMetaResult} {H : List (String × String)}
    {s : Nat} (hmeta : o.responseMeta = some f)
    (hf : ∀ a, f a = ⟨H, some s⟩) (hs : s ≠ 0)
    (T : ProcedureType) (c : Option Ctx) (paths : Option (List String))
    (body : ResponseBody) (errs : List TRPCError) :
    (endResponse o T c paths body errs).status = s := by
  unfold endResponse metaOf
  simp only [hmeta]
  rw [hf]
  simp [hs]

theorem endResponse_headers_meta {o : Opts}
    {f : ResponseMetaArgs → ResponseMetaResult} {H : List (String × String)}
    {st : Option Nat} (hmeta : o.responseMeta = some f)
    (hf : ∀ a, f a = ⟨H, st⟩)
    (T : ProcedureType) (c : Option Ctx) (paths : Option (List String))
    (body : ResponseBody) (errs : List TRPCError) :
    (endResponse o T c paths body errs).headers =
      H.foldl (fun a kv => setHeader a kv.1 kv.2)
        [("Content-Type", "application/json")] := by
  unfold endResponse metaOf
  simp only [hmeta]
  rw [hf]

theorem shapeResult_batch {o : Opts} (hb : isBatchCall o = true)
    (envelopes : List TRPCResponseEnvelope) :
    shapeResult o envelopes = .batch envelopes := by
  unfold shapeResult
  rw [hb]
  rfl

theorem shapeResult_single {o : Opts} (hb : isBatchCall o = false)
    (envelopes : List TRPCResponseEnvelope) :
    shapeResult o envelopes = .single (envelopes.headD (.result .null)) := by
  unfold shapeResult
  rw [hb]
  rfl

theorem dispatchResults_length (o : Opts) (T : ProcedureType) (c : Ctx)
    (inputs : List (String × Option JsonValue)) (paths : List String) :
    (dispatchResults o T c inputs paths).length = paths.length := by
  unfold dispatchResults
  rw [List.length_map, List.enum_eq_enumFrom, List.enumFrom_length]

theorem dispatchEnvelopes_length (o : Opts) (T : ProcedureType) (c : Ctx)
    (inputs : List (String × Option JsonValue)) (paths : List String) :
    (dispatchEnvelopes o T c inputs paths).length = paths.length := by
  unfold dispatchEnvelopes
  rw [List.length_map, dispatchResults_length]

theorem dispatchResults_getElem? {o : Opts} {T : ProcedureType} {c : Ctx}
    {inputs : List (String × Option JsonValue)} {paths : List String}
    {i : Nat} {p : String} (hip : paths[i]? = some p) :
    (dispatchResults o T c inputs paths)[i]? =
      some ⟨p, getInput inputs i, callOutcome o T c (getInput inputs i) p⟩ := by
  unfold dispatchResults
  rw [List.getElem?_map, List.enum_eq_enumFrom, List.getElem?_enumFrom, hip]
  simp

theorem dispatchEnvelopes_getElem? {o : Opts} {T : ProcedureType} {c : Ctx}
    {inputs : List (String × Option JsonValue)} {paths : List String}
    {i : Nat} {p : String} (hip : paths[i]? = some p) :
    (dispatchEnvelopes o T c inputs paths)[i]? =
      some (envelopeOf o T c
        ⟨p, getInput inputs i, callOutcome o T c (getInput inputs i) p⟩) := by
  unfold dispatchEnvelopes
  rw [List.getElem?_map, dispatchResults_getElem? hip]
  rfl

theorem gatePhase_withCP (o : Opts)
    (cp : Ctx → String → Option JsonValue → ProcedureType → Except Thrown JsonValue)
    (T : ProcedureType) :
    gatePhase (withCallProcedure o cp) T = gatePhase o T := rfl

theorem handleError_withCP (o : Opts)
    (cp : Ctx → String → Option JsonValue → ProcedureType → Except Thrown JsonValue)
    (T : ProcedureType) (c : Option Ctx) (paths : Option (List String))
    (t : Thrown) :
    handleError (withCallProcedure o cp) T c paths t = handleError o T c paths t := rfl

theorem servable_not_rejected {T : ProcedureType}
    (h : T = .query ∨ T = .mutation) :
    ¬(T = .unknown ∨ T = .subscription) := by
  rcases h with rfl | rfl <;> decide

/-! ## Concrete instances used by witnesses and counterexamples -/

/-- Replace the injected context factory, leaving everything else
untouched. -/
def withCreateContext (o : Opts) (cc : Except Thrown Ctx) : Opts :=
  { o with createContext := cc }

/-- The identity transformer (the default when no transformer is
configured). -/
def idTransformer : TransformerPair :=
  ⟨fun v => .ok v, fun v => v⟩

/-- An error shaper that exposes the taxonomy kind and nothing else. -/
def codeShaper : TRPCError → ProcedureType → Option String → Option JsonValue →
    Option Ctx → ShapedError :=
  fun e _ _ _ _ => ⟨e.code, .null⟩

/-- A procedure engine whose every procedure returns `null`. -/
def cpNull : Ctx → String → Option JsonValue → ProcedureType → Except Thrown JsonValue :=
  fun _ _ _ _ => .ok .null

/-- A JSON parser stub that rejects every string (no witness below feeds a
string that must parse). -/
def jpReject : String → Except String JsonValue :=
  fun s => .error s

/-- Router built from the identity transformer and the kind-exposing
shaper. -/
def mkRouter (cp : Ctx → String → Option JsonValue → ProcedureType →
    Except Thrown JsonValue) : RouterM :=
  ⟨idTransformer, codeShaper, cp⟩

/-! ## Claims -/

/-- Claim C9: for every HEAD request the handler answers status 204 with
an empty body immediately; the answer is one fixed constant, the same for
every router, context factory, procedure engine and hook, and the hook
log is empty — no other stage of the pipeline runs. -/
theorem claim_C9 (o : Opts) (hm : o.req.method = "HEAD") :
    requestHandlerInner o = (.ok ⟨204, [], none⟩, [])
    ∧ (∀ cp, requestHandlerInner (withCallProcedure o cp) = (.ok ⟨204, [], none⟩, []))
    ∧ (∀ cc, requestHandlerInner (withCreateContext o cc) = (.ok ⟨204, [], none⟩, [])) := by
  have key : ∀ o' : Opts, o'.req.method = "HEAD" →
      requestHandlerInner o' = (.ok ⟨204, [], none⟩, []) := by
    intro o' hm'
    unfold requestHandlerInner
    rw [if_pos hm']
  exact ⟨key o hm, fun cp => key _ hm, fun cc => key _ hm⟩

/-- A HEAD request instance for the C9 witness. -/
def oHead : Opts :=
  ⟨mkRouter cpNull, ⟨"HEAD", [], [], .undef⟩, "p", none, .ok 0, none, none, jpReject⟩

/-- Witness for C9 at a concrete HEAD request. -/
theorem claim_C9_witness :
    oHead.req.method = "HEAD" ∧
      requestHandlerInner oHead = (.ok ⟨204, [], none⟩, []) :=
  ⟨rfl, (claim_C9 oHead rfl).1⟩

/-- Claim C7: raw input extraction.  For GET, an absent `input` query
parameter yields an absent raw input, and a present one is JSON-parsed;
for every other method, a string body is JSON-parsed and a structured body
passes through unchanged; every parse failure is wrapped as a
`PARSE_ERROR` carrying the original error, never surfaced raw. -/
theorem claim_C7 (jp : String → Except String JsonValue) (req : HTTPRequest) :
    (req.method = "GET" → queryGet req.query "input" = none →
      getRawProcedureInputOrThrow jp req = .ok none)
    ∧ (req.method = "GET" → ∀ s, queryGet req.query "input" = some s →
        (∀ v, jp s = .ok v → getRawProcedureInputOrThrow jp req = .ok (some v))
        ∧ (∀ e, jp s = .error e →
            getRawProcedureInputOrThrow jp req =
              .error (.trpc ⟨.parseError, "", some e⟩)))
    ∧ (req.method ≠ "GET" →
        (∀ s, req.body = .str s →
          (∀ v, jp s = .ok v → getRawProcedureInputOrThrow jp req = .ok (some v))
          ∧ (∀ e, jp s = .error e →
              getRawProcedureInputOrThrow jp req =
                .error (.trpc ⟨.parseError, "", some e⟩)))
        ∧ (∀ v, req.body = .json v →
            getRawProcedureInputOrThrow jp req = .ok (some v))
        ∧ (req.body = .undef → getRawProcedureInputOrThrow jp req = .ok none)) := by
  refine ⟨?_, ?_, ?_⟩
  · intro hg hq
    unfold getRawProcedureInputOrThrow
    rw [if_pos hg, hq]
  · intro hg s hq
    constructor
    · intro v hv
      unfold getRawProcedureInputOrThrow
      simp only [if_pos hg, hq, wrapParse, hv]
    · intro e he
      unfold getRawProcedureInputOrThrow
      simp only [if_pos hg, hq, wrapParse, he]
  · intro hg
    refine ⟨?_, ?_, ?_⟩
    · intro s hs
      constructor
      · intro v hv
        unfold getRawProcedureInputOrThrow
        simp only [if_neg hg, hs, wrapParse, hv]
      · intro e he
        unfold getRawProcedureInputOrThrow
        simp only [if_neg hg, hs, wrapParse, he]
    · intro v hv
      unfold getRawProcedureInputOrThrow
      simp only [if_neg hg, hv]
    · intro hu
      unfold getRawProcedureInputOrThrow
      simp only [if_neg hg, hu]

/-- A GET request with a malformed `input` parameter for the C7 witness. -/
def reqGetBad : HTTPRequest :=
  ⟨"GET", [], [("input", "not-json")], .undef⟩

/-- Witness for C7: a GET whose `input` fails to parse produces the
wrapped `PARSE_ERROR` preserving the original error. -/
theorem claim_C7_witness :
    reqGetBad.method = "GET"
    ∧ queryGet reqGetBad.query "input" = some "not-json"
    ∧ jpReject "not-json" = .error "not-json"
    ∧ getRawProcedureInputOrThrow jpReject reqGetBad =
        .error (.trpc ⟨.parseError, "", some "not-json"⟩) :=
  ⟨rfl, rfl, rfl,
   ((claim_C7 jpReject reqGetBad).2.1 rfl "not-json" rfl).2 "not-json" rfl⟩

theorem gatePhase_mns {o : Opts} {T : ProcedureType}
    (h1 : (isBatchCall o && !batchingEnabled o) = false)
    (h2 : T = .unknown ∨ T = .subscription) :
    gatePhase o T = .error (.trpc ⟨.methodNotSupported,
      "Unexpected request method " ++ o.req.method, none⟩, none, none) := by
  unfold gatePhase
  simp only [h1, Bool.false_eq_true, if_false]
  rw [if_pos h2]

/-- A PATCH request (subscription kind) that also asks for batching while
batching is disabled: the batching gate fires first. -/
def oC8patch : Opts :=
  ⟨mkRouter cpNull, ⟨"PATCH", [], [("batch", "1")], .undef⟩, "p",
   some false, .ok 0, none, none, jpReject⟩

/-- A HEAD request whose method is outside the classifier map. -/
def oC8head : Opts :=
  ⟨mkRouter cpNull, ⟨"HEAD", [], [], .undef⟩, "p", none, .ok 0, none, none, jpReject⟩

/-- Counterexample for C8.  The claim says every request whose kind is
unknown or subscription is rejected with a METHOD_NOT_SUPPORTED error.
Two concrete requests refute it: a PATCH request (subscription kind) that
also asks for batching while batching is disabled is rejected by the
earlier batching gate, so its single error envelope carries the
INTERNAL_SERVER_ERROR kind, not METHOD_NOT_SUPPORTED (the shaper
`codeShaper` exposes the kind verbatim); and a HEAD request (whose method
maps to the unknown kind) is not rejected at all — it short-circuits to a
bodiless 204 success. -/
theorem claim_C8_counterexample :
    procTypeOf oC8patch.req.method = .subscription
    ∧ requestHandlerInner oC8patch =
        (.ok ⟨500, [("Content-Type", "application/json")],
          some (.single (.error ⟨.internalServerError, .null⟩))⟩, [])
    ∧ procTypeOf oC8head.req.method = .unknown
    ∧ requestHandlerInner oC8head = (.ok ⟨204, [], none⟩, []) :=
  ⟨rfl, rfl, rfl, rfl⟩

/-- Claim C8 (amended): the classifier maps GET to query, POST to
mutation, PATCH to subscription and every other method to unknown; and a
request that is not a HEAD request (HEAD short-circuits before
classification) and that passed the earlier batching-disabled gate is,
when its kind is unknown or subscription, rejected with a single
top-level METHOD_NOT_SUPPORTED error envelope. -/
theorem claim_C8_amended :
    HTTP_METHOD_PROCEDURE_TYPE_MAP "GET" = some .query
    ∧ HTTP_METHOD_PROCEDURE_TYPE_MAP "POST" = some .mutation
    ∧ HTTP_METHOD_PROCEDURE_TYPE_MAP "PATCH" = some .subscription
    ∧ (∀ m, m ≠ "GET" → m ≠ "POST" → m ≠ "PATCH" → procTypeOf m = .unknown)
    ∧ (∀ o : Opts, o.req.method ≠ "HEAD" →
        (isBatchCall o && !batchingEnabled o) = false →
        (procTypeOf o.req.method = .unknown ∨
          procTypeOf o.req.method = .subscription) →
        OnErrorOk o →
        requestHandlerInner o =
          (.ok (endResponse o (procTypeOf o.req.method) none none
            (.single (.error (o.router.getErrorShape
              ⟨.methodNotSupported,
               "Unexpected request method " ++ o.req.method, none⟩
              (procTypeOf o.req.method) none none none)))
            [⟨.methodNotSupported,
              "Unexpected request method " ++ o.req.method, none⟩]),
           hookLog o ⟨⟨.methodNotSupported,
             "Unexpected request method " ++ o.req.method, none⟩,
             none, none, none, procTypeOf o.req.method, o.req⟩)) := by
  refine ⟨rfl, rfl, rfl, ?_, ?_⟩
  · intro m h1 h2 h3
    unfold procTypeOf HTTP_METHOD_PROCEDURE_TYPE_MAP
    rw [if_neg h1, if_neg h2, if_neg h3]
    rfl
  · intro o hm h1 h2 honerr
    rw [inner_gate_error hm (gatePhase_mns h1 h2), handleError_ok honerr]
    rfl

/-- A PATCH request with batching enabled for the C8 witness. -/
def oC8w : Opts :=
  ⟨mkRouter cpNull, ⟨"PATCH", [], [], .undef⟩, "p", none, .ok 0,
   some (fun _ => .ok ()), none, jpReject⟩

/-- Witness for the amended C8 at a concrete PATCH request with batching
enabled: the response is the shaped METHOD_NOT_SUPPORTED envelope and the
hook saw the same error with no path. -/
theorem claim_C8_witness :
    oC8w.req.method ≠ "HEAD"
    ∧ (isBatchCall oC8w && !batchingEnabled oC8w) = false
    ∧ procTypeOf oC8w.req.method = .subscription
    ∧ requestHandlerInner oC8w =
        (.ok (endResponse oC8w (procTypeOf oC8w.req.method) none none
          (.single (.error (oC8w.router.getErrorShape
            ⟨.methodNotSupported,
             "Unexpected request method " ++ oC8w.req.method, none⟩
            (procTypeOf oC8w.req.method) none none none)))
          [⟨.methodNotSupported,
            "Unexpected request method " ++ oC8w.req.method, none⟩]),
         hookLog oC8w ⟨⟨.methodNotSupported,
           "Unexpected request method " ++ oC8w.req.method, none⟩,
           none, none, none, procTypeOf oC8w.req.method, oC8w.req⟩) :=
  ⟨by decide, rfl, rfl,
   claim_C8_amended.2.2.2.2 oC8w (by decide) rfl (Or.inr rfl) (fun a => rfl)⟩

/-- Claim C2: a request that fails at a request-level gate (batch call
while batching is disabled, unservable method kind, raw-input parse
failure, context-factory failure, or batch input-shape / input
deserialization failure — exactly the error cases of `gatePhase`) is
aborted as a whole: the response is one single top-level error envelope
shaped with `path: undefined` (and the hook, when invoked, also sees
`path: undefined`), and the whole answer is invariant under replacing the
procedure engine — no procedure is ever invoked. -/
theorem claim_C2 (o : Opts) {t : Thrown} {c : Option Ctx}
    {paths : Option (List String)}
    (hm : o.req.method ≠ "HEAD") (honerr : OnErrorOk o)
    (hg : gatePhase o (procTypeOf o.req.method) = .error (t, c, paths)) :
    requestHandlerInner o =
      (.ok (endResponse o (procTypeOf o.req.method) c paths
        (.single (.error (o.router.getErrorShape (getErrorFromUnknown t)
          (procTypeOf o.req.method) none none c)))
        [getErrorFromUnknown t]),
       hookLog o ⟨getErrorFromUnknown t, none, none, c,
         procTypeOf o.req.method, o.req⟩)
    ∧ ∀ cp, requestHandlerInner (withCallProcedure o cp) = requestHandlerInner o := by
  constructor
  · rw [inner_gate_error hm hg, handleError_ok honerr]
  · intro cp
    rw [inner_gate_error (o := withCallProcedure o cp) hm hg]
    rw [handleError_withCP]
    rw [inner_gate_error hm hg]
    rfl

/-- A batch request sent while batching is disabled, for the C2 witness. -/
def oC2w : Opts :=
  ⟨mkRouter cpNull, ⟨"POST", [], [("batch", "1")], .undef⟩, "a,b",
   some false, .ok 0, some (fun _ => .ok ()), none, jpReject⟩

/-- Witness for C2 at a concrete disabled-batching violation. -/
theorem claim_C2_witness :
    oC2w.req.method ≠ "HEAD"
    ∧ gatePhase oC2w (procTypeOf oC2w.req.method) =
        .error (.plain "Batching is not enabled on the server", none, none)
    ∧ requestHandlerInner oC2w =
        (.ok (endResponse oC2w (procTypeOf oC2w.req.method) none none
          (.single (.error (oC2w.router.getErrorShape
            (getErrorFromUnknown (.plain "Batching is not enabled on the server"))
            (procTypeOf oC2w.req.method) none none none)))
          [getErrorFromUnknown (.plain "Batching is not enabled on the server")]),
         hookLog oC2w ⟨getErrorFromUnknown
             (.plain "Batching is not enabled on the server"),
           none, none, none, procTypeOf oC2w.req.method, oC2w.req⟩)
    ∧ (∀ cp, requestHandlerInner (withCallProcedure oC2w cp) =
        requestHandlerInner oC2w) := by
  have h := claim_C2 oC2w (by decide) (fun a => rfl) rfl
  exact ⟨by decide, rfl, h.1, h.2⟩

theorem gatePhase_bad_shape {o : Opts} {T : ProcedureType}
    {rv : Option JsonValue} {c : Ctx}
    (hb : isBatchCall o = true) (hen : batchingEnabled o = true)
    (hT : T = .query ∨ T = .mutation)
    (hraw : getRawProcedureInputOrThrow o.jsonParse o.req = .ok rv)
    (hshape : isBatchObjShape rv = false)
    (hctx : o.createContext = .ok c) :
    gatePhase o T = .error (.trpc ⟨.badRequest,
      "\"input\" needs to be an object when doing a batch call", none⟩,
      some c, some (pathsOf o)) := by
  have h1 : (isBatchCall o && !batchingEnabled o) = false := by
    rw [hb, hen]
    rfl
  unfold gatePhase
  simp only [h1, Bool.false_eq_true, if_false,
    if_neg (servable_not_rejected hT), hraw, hctx,
    getInputs_batch_not_obj hb hshape]

/-- Claim C6: a batch call whose raw input fails the object-shape check
(absent, null, array, or any non-object value) aborts the whole request
with the BAD_REQUEST error whose message says the input needs to be an
object for batch calls; the response is one single top-level error
envelope, and the answer is invariant under replacing the procedure
engine — no procedure is invoked. -/
theorem claim_C6 (o : Opts) {rv : Option JsonValue} {c : Ctx}
    (hm : o.req.method ≠ "HEAD") (honerr : OnErrorOk o)
    (hb : isBatchCall o = true) (hen : batchingEnabled o = true)
    (hT : procTypeOf o.req.method = .query ∨ procTypeOf o.req.method = .mutation)
    (hraw : getRawProcedureInputOrThrow o.jsonParse o.req = .ok rv)
    (hshape : isBatchObjShape rv = false)
    (hctx : o.createContext = .ok c) :
    requestHandlerInner o =
      (.ok (endResponse o (procTypeOf o.req.method) (some c) (some (pathsOf o))
        (.single (.error (o.router.getErrorShape
          ⟨.badRequest, "\"input\" needs to be an object when doing a batch call", none⟩
          (procTypeOf o.req.method) none none (some c))))
        [⟨.badRequest, "\"input\" needs to be an object when doing a batch call", none⟩]),
       hookLog o ⟨⟨.badRequest,
         "\"input\" needs to be an object when doing a batch call", none⟩,
         none, none, some c, procTypeOf o.req.method, o.req⟩)
    ∧ ∀ cp, requestHandlerInner (withCallProcedure o cp) = requestHandlerInner o := by
  have hg := gatePhase_bad_shape hb hen hT hraw hshape hctx
  constructor
  · rw [inner_gate_error hm hg, handleError_ok honerr]
    rfl
  · intro cp
    rw [inner_gate_error (o := withCallProcedure o cp) hm hg]
    rw [handleError_withCP]
    rw [inner_gate_error hm hg]
    rfl

/-- A two-path batch POST whose body is the array `[1, 2]`, for the C6
witness (spec section 8, property 6). -/
def oC6w : Opts :=
  ⟨mkRouter cpNull,
   ⟨"POST", [], [("batch", "1")], .json (.arr [.num 1, .num 2])⟩,
   "a,b", none, .ok 0, some (fun _ => .ok ()), none, jpReject⟩

/-- Witness for C6: the array-bodied batch request aborts with the shaped
BAD_REQUEST envelope and the hook saw the same error. -/
theorem claim_C6_witness :
    isBatchCall oC6w = true
    ∧ getRawProcedureInputOrThrow oC6w.jsonParse oC6w.req =
        .ok (some (.arr [.num 1, .num 2]))
    ∧ isBatchObjShape (some (.arr [.num 1, .num 2])) = false
    ∧ requestHandlerInner oC6w =
        (.ok (endResponse oC6w (procTypeOf oC6w.req.method) (some 0)
          (some (pathsOf oC6w))
          (.single (.error (oC6w.router.getErrorShape
            ⟨.badRequest, "\"input\" needs to be an object when doing a batch call", none⟩
            (procTypeOf oC6w.req.method) none none (some 0))))
          [⟨.badRequest,
            "\"input\" needs to be an object when doing a batch call", none⟩]),
         hookLog oC6w ⟨⟨.badRequest,
           "\"input\" needs to be an object when doing a batch call", none⟩,
           none, none, some 0, procTypeOf oC6w.req.method, oC6w.req⟩)
    ∧ (∀ cp, requestHandlerInner (withCallProcedure oC6w cp) =
        requestHandlerInner oC6w) := by
  have h := claim_C6 oC6w (by decide) (fun a => rfl) rfl rfl (Or.inr rfl) rfl rfl rfl
  exact ⟨rfl, rfl, rfl, h.1, h.2⟩

/-- Claim C1: once the request-level gates pass (`gatePhase` fulfils) and
the observability hook keeps its fire-and-forget contract, the handler
answers with envelopes built one-per-call: the envelope list has exactly
one entry per requested path; for a batch request the paths are the
comma-split of the route and the body is the ordered envelope list; for a
plain request there is exactly one path and the body is that single
envelope; and the envelope at every index i is built from the call of
path[i] with the input at index i — a per-call outcome (success or
normalized failure, `callOutcome` is total) always yields an envelope, so
no call aborts its siblings. -/
theorem claim_C1 (o : Opts) {c : Ctx} {paths : List String}
    {inputs : List (String × Option JsonValue)}
    (hm : o.req.method ≠ "HEAD") (honerr : OnErrorOk o)
    (hg : gatePhase o (procTypeOf o.req.method) = .ok (c, paths, inputs)) :
    (requestHandlerInner o).1 =
      .ok (endResponse o (procTypeOf o.req.method) (some c) (some paths)
        (shapeResult o (dispatchEnvelopes o (procTypeOf o.req.method) c inputs paths))
        (errorsOf (dispatchResults o (procTypeOf o.req.method) c inputs paths)))
    ∧ (dispatchEnvelopes o (procTypeOf o.req.method) c inputs paths).length =
        paths.length
    ∧ (isBatchCall o = true →
        paths = splitComma o.path
        ∧ shapeResult o (dispatchEnvelopes o (procTypeOf o.req.method) c inputs paths) =
            .batch (dispatchEnvelopes o (procTypeOf o.req.method) c inputs paths))
    ∧ (isBatchCall o = false →
        paths = [o.path]
        ∧ shapeResult o (dispatchEnvelopes o (procTypeOf o.req.method) c inputs paths) =
            .single ((dispatchEnvelopes o (procTypeOf o.req.method) c inputs paths).headD
              (.result .null))
        ∧ (dispatchEnvelopes o (procTypeOf o.req.method) c inputs paths).length = 1)
    ∧ (∀ i p, paths[i]? = some p →
        (dispatchEnvelopes o (procTypeOf o.req.method) c inputs paths)[i]? =
          some (envelopeOf o (procTypeOf o.req.method) c
            ⟨p, getInput inputs i,
             callOutcome o (procTypeOf o.req.method) c (getInput inputs i) p⟩)) := by
  obtain ⟨hpaths, -, -⟩ := gatePhase_ok_elim hg
  refine ⟨?_, dispatchEnvelopes_length o _ c inputs paths, ?_, ?_,
    fun i p hip => dispatchEnvelopes_getElem? hip⟩
  · rw [inner_dispatch_ok hm hg honerr]
  · intro hb
    refine ⟨?_, shapeResult_batch hb _⟩
    rw [hpaths]
    unfold pathsOf
    rw [hb]
    rfl
  · intro hb
    refine ⟨?_, shapeResult_single hb _, ?_⟩
    · rw [hpaths]
      unfold pathsOf
      rw [hb]
      rfl
    · rw [dispatchEnvelopes_length, hpaths]
      unfold pathsOf
      rw [hb]
      rfl

/-- A two-path batch where the second call's procedure throws, for the C1
witness (spec section 8, property 5): two envelopes come back, in order,
one success and one error. -/
def oC1w : Opts :=
  ⟨⟨idTransformer, codeShaper,
    fun _ path _ _ =>
      if path = "a" then .ok (.num 7) else .error (.plain "boom")⟩,
   ⟨"POST", [], [("batch", "1")],
    .json (.obj [("0", .num 1), ("1", .num 2)])⟩,
   "a,b", none, .ok 0, none, none, jpReject⟩

/-- Witness for C1 at a concrete two-path batch with a mixed
success/failure outcome: both envelopes are present, in path order. -/
theorem claim_C1_witness :
    oC1w.req.method ≠ "HEAD"
    ∧ gatePhase oC1w (procTypeOf oC1w.req.method) =
        .ok (0, ["a", "b"], [("0", some (.num 1)), ("1", some (.num 2))])
    ∧ (dispatchEnvelopes oC1w (procTypeOf oC1w.req.method) 0
        [("0", some (.num 1)), ("1", some (.num 2))] ["a", "b"]).length =
        (["a", "b"] : List String).length
    ∧ (requestHandlerInner oC1w).1 =
        .ok ⟨500, [("Content-Type", "application/json")],
          some (.batch [.result (.num 7), .error ⟨.internalServerError, .null⟩])⟩ := by
  have h := claim_C1 oC1w (by decide) (fun a => rfl) rfl
  exact ⟨by decide, rfl, h.2.1, rfl⟩

/-- Claim C10: in a batch whose (object-shaped) raw input has no key for
some positional index i below the path count, the call at index i still
runs, with input `undefined`: the missing key raises no error (the gate
phase fulfils), the absent value bypasses the transformer
(`deserializeInputValue` is the identity on an absent input), and the
call produces its normal positional envelope from an `undefined` input. -/
theorem claim_C10 (o : Opts) {c : Ctx} {paths : List String}
    {inputs : List (String × Option JsonValue)}
    {fields : List (String × JsonValue)} {i : Nat} {p : String}
    (hm : o.req.method ≠ "HEAD") (honerr : OnErrorOk o)
    (hb : isBatchCall o = true)
    (hraw : getRawProcedureInputOrThrow o.jsonParse o.req = .ok (some (.obj fields)))
    (hg : gatePhase o (procTypeOf o.req.method) = .ok (c, paths, inputs))
    (hkey : ∀ kv ∈ fields, kv.1 ≠ toString i)
    (hip : paths[i]? = some p) :
    getInput inputs i = none
    ∧ deserializeInputValue o.router.transformer.deserialize none = .ok none
    ∧ (requestHandlerInner o).1 =
        .ok (endResponse o (procTypeOf o.req.method) (some c) (some paths)
          (.batch (dispatchEnvelopes o (procTypeOf o.req.method) c inputs paths))
          (errorsOf (dispatchResults o (procTypeOf o.req.method) c inputs paths)))
    ∧ (dispatchEnvelopes o (procTypeOf o.req.method) c inputs paths)[i]? =
        some (envelopeOf o (procTypeOf o.req.method) c
          ⟨p, none, callOutcome o (procTypeOf o.req.method) c none p⟩) := by
  obtain ⟨hpaths, hctx, rv, hraw', hinp⟩ := gatePhase_ok_elim hg
  have hrv : rv = some (.obj fields) := by
    rw [hraw'] at hraw
    exact Except.ok.inj hraw
  subst hrv
  have hinp' : fields.foldlM (batchStep o.router.transformer.deserialize) [] =
      .ok inputs := by
    rw [← getInputs_batch_obj hb fields]
    exact hinp
  have hfind : inputs.find? (fun q => q.1 = toString i) = none :=
    foldlM_batchStep_find_none fields _ [] inputs (toString i) hkey hinp' rfl
  have hin : getInput inputs i = none := getInput_of_find?_none hfind
  refine ⟨hin, rfl, ?_, ?_⟩
  · rw [inner_dispatch_ok hm hg honerr]
    rw [shapeResult_batch hb]
  · rw [dispatchEnvelopes_getElem? hip, hin]

/-- A two-path batch whose input object only has key "0", for the C10
witness: the second call runs with input `undefined`. -/
def oC10w : Opts :=
  ⟨mkRouter cpNull,
   ⟨"POST", [], [("batch", "1")], .json (.obj [("0", .num 1)])⟩,
   "a,b", none, .ok 0, none, none, jpReject⟩

/-- Witness for C10: index 1 has no input key; its call still yields a
normal success envelope from an `undefined` input. -/
theorem claim_C10_witness :
    isBatchCall oC10w = true
    ∧ gatePhase oC10w (procTypeOf oC10w.req.method) =
        .ok (0, ["a", "b"], [("0", some (.num 1))])
    ∧ (["a", "b"] : List String)[1]? = some "b"
    ∧ getInput [("0", some (.num 1))] 1 = none
    ∧ (dispatchEnvelopes oC10w (procTypeOf oC10w.req.method) 0
        [("0", some (.num 1))] ["a", "b"])[1]? =
        some (envelopeOf oC10w (procTypeOf oC10w.req.method) 0
          ⟨"b", none, callOutcome oC10w (procTypeOf oC10w.req.method) 0 none "b"⟩) := by
  have h := @claim_C10 oC10w 0 ["a", "b"] [("0", some (.num 1))]
    [("0", .num 1)] 1 "b" (by decide) (fun a => rfl) rfl rfl rfl
    (by intro kv hkv; simp at hkv; rw [hkv]; decide) rfl
  exact ⟨rfl, rfl, rfl, h.1, h.2.2.2⟩

/-- A batch request whose input object carries the key "foo", which is not
the decimal representation of any positional index. -/
def oC3 : Opts :=
  ⟨mkRouter cpNull,
   ⟨"POST", [], [("batch", "1")], .json (.obj [("foo", .num 1)])⟩,
   "a", none, .ok 0, none, none, jpReject⟩

/-- Counterexample for C3.  The claim says a batch-input key that does not
parse cleanly to a non-negative positional index is rejected.  The code
never parses or validates keys (`key as any as number` is a compile-time
cast): the input object `{"foo": 1}` is accepted — `getInputs` fulfils,
keeping the key verbatim — and the whole request then succeeds normally,
with the lone call reading input `undefined`. -/
theorem claim_C3_counterexample :
    isBatchCall oC3 = true
    ∧ getInputs oC3 (some (.obj [("foo", .num 1)])) = .ok [("foo", some (.num 1))]
    ∧ (requestHandlerInner oC3).1 =
        .ok ⟨200, [("Content-Type", "application/json")],
          some (.batch [.result .null])⟩ :=
  ⟨rfl, rfl, rfl⟩

/-- Claim C3 (amended): for every batch call the raw input must be a
non-null, non-array object — any other shape is rejected with the
BAD_REQUEST batch-input error — and the value at each own-property key is
individually deserialized; the keys themselves are NOT validated: each is
stored verbatim, a key that is not the decimal representation of a
positional index is silently ignored by dispatch rather than rejected,
and an index whose key is absent from the object reads as `undefined`. -/
theorem claim_C3_amended (o : Opts) (hb : isBatchCall o = true) :
    (∀ rv, isBatchObjShape rv = false →
      getInputs o rv = .error (.trpc ⟨.badRequest,
        "\"input\" needs to be an object when doing a batch call", none⟩))
    ∧ (∀ fields : List (String × JsonValue),
        (∀ kv ∈ fields, ∃ w, o.router.transformer.deserialize kv.2 = .ok w) →
        ∃ inputs, getInputs o (some (.obj fields)) = .ok inputs
          ∧ (∀ k, (∀ kv ∈ fields, kv.1 ≠ k) →
              inputs.find? (fun q => q.1 = k) = none)
          ∧ ((fields.map Prod.fst).Nodup →
              ∀ kv ∈ fields, ∃ w,
                o.router.transformer.deserialize kv.2 = .ok w ∧
                inputs.find? (fun q => q.1 = kv.1) = some (kv.1, some w))) := by
  constructor
  · intro rv hshape
    exact getInputs_batch_not_obj hb hshape
  · intro fields hok
    obtain ⟨out, hout⟩ := foldlM_batchStep_total fields _ [] hok
    refine ⟨out, ?_, ?_, ?_⟩
    · rw [getInputs_batch_obj hb]
      exact hout
    · intro k hk
      exact foldlM_batchStep_find_none fields _ [] out k hk hout rfl
    · intro hnd kv hkv
      exact foldlM_batchStep_mem fields _ [] out kv hnd hkv hout

/-- Witness for the amended C3 at the concrete input object
`{"foo": 1, "0": 2}`: the shape check rejects an array, the object is
accepted with both values deserialized under their verbatim keys, and no
binding exists for the key "1". -/
theorem claim_C3_witness :
    isBatchCall oC3 = true
    ∧ getInputs oC3 (some (.arr [.num 1])) =
        .error (.trpc ⟨.badRequest,
          "\"input\" needs to be an object when doing a batch call", none⟩)
    ∧ (∃ inputs, getInputs oC3 (some (.obj [("foo", .num 1), ("0", .num 2)])) =
          .ok inputs
        ∧ inputs.find? (fun q => q.1 = "1") = none) := by
  refine ⟨rfl, (claim_C3_amended oC3 rfl).1 (some (.arr [.num 1])) rfl, ?_⟩
  obtain ⟨inputs, h1, h2, -⟩ :=
    (claim_C3_amended oC3 rfl).2 [("foo", .num 1), ("0", .num 2)]
      (by intro kv hkv; exact ⟨kv.2, rfl⟩)
  exact ⟨inputs, h1, h2 "1" (by decide)⟩

/-- A plain request whose procedure throws and whose `onError` hook itself
throws. -/
def oC4a : Opts :=
  ⟨⟨idTransformer, codeShaper, fun _ _ _ _ => .error (.plain "boom")⟩,
   ⟨"POST", [], [], .undef⟩, "p", none, .ok 0,
   some (fun _ => .error (.plain "hookboom")), none, jpReject⟩

/-- The same request with a well-behaved `onError` hook. -/
def oC4b : Opts :=
  ⟨⟨idTransformer, codeShaper, fun _ _ _ _ => .error (.plain "boom")⟩,
   ⟨"POST", [], [], .undef⟩, "p", none, .ok 0,
   some (fun _ => .ok ()), none, jpReject⟩

/-- Counterexample for C4.  The claim says an error thrown by the
`onError` hook never affects the HTTP response.  `oC4a` and `oC4b` differ
only in the hook: with the well-behaved hook the response is the per-call
error envelope; with the throwing hook the per-call catch block re-throws,
`Promise.all` rejects, the top-level catch calls the hook again, which
throws again, and the handler yields no response at all. -/
theorem claim_C4_counterexample :
    oC4a = { oC4b with onError := oC4a.onError }
    ∧ (requestHandlerInner oC4a).1 = .error (.plain "hookboom")
    ∧ (requestHandlerInner oC4b).1 =
        .ok ⟨500, [("Content-Type", "application/json")],
          some (.single (.error ⟨.internalServerError, .null⟩))⟩ :=
  ⟨rfl, rfl, rfl⟩

/-- Claim C4 (amended): when a call's procedure fails and the `onError`
hook is configured, the hook is invoked with the normalized error, the
path, the input, the shared context, the operation kind and the original
request — this invocation is recorded whether or not the hook itself
throws, so the report happens before the outcome is settled; if the hook
returns cleanly the failure is folded into that call's own outcome, whose
payload does not depend on the hook; but if the hook throws, the thrown
value replaces the call's outcome and escalates (so a throwing hook does
affect the response). -/
theorem claim_C4_amended (o : Opts) (T : ProcedureType) (c : Ctx)
    (inputs : List (String × Option JsonValue)) (path : String) (i : Nat)
    {f : OnErrorArgs → Except Thrown Unit} {t : Thrown}
    (hhook : o.onError = some f)
    (hcall : o.router.callProcedure c path (getInput inputs i) T = .error t) :
    (runCall o T c inputs path i).2 =
      [⟨getErrorFromUnknown t, some path, getInput inputs i, some c, T, o.req⟩]
    ∧ (f ⟨getErrorFromUnknown t, some path, getInput inputs i, some c, T, o.req⟩ =
          .ok () →
        (runCall o T c inputs path i).1 =
          .ok ⟨path, getInput inputs i, .error (getErrorFromUnknown t)⟩)
    ∧ (∀ t2,
        f ⟨getErrorFromUnknown t, some path, getInput inputs i, some c, T, o.req⟩ =
          .error t2 →
        (runCall o T c inputs path i).1 = .error t2) := by
  unfold runCall invokeOnError
  simp only [hcall, hhook]
  cases hf : f ⟨getErrorFromUnknown t, some path, getInput inputs i, some c, T, o.req⟩ with
  | ok u =>
    refine ⟨rfl, fun _ => rfl, fun t2 ht2 => ?_⟩
    simp at ht2
  | error t2 =>
    refine ⟨rfl, fun hok => ?_, fun t3 ht3 => ?_⟩
    · simp at hok
    · injection ht3 with h
      subst h
      rfl

/-- Witness for the amended C4 at the concrete failing call of `oC4b`:
the hook invocation is recorded and the outcome folds the normalized
error. -/
theorem claim_C4_witness :
    oC4b.router.callProcedure 0 "p" none .mutation = .error (.plain "boom")
    ∧ (runCall oC4b .mutation 0 [("0", none)] "p" 0).2 =
        [⟨⟨.internalServerError, "boom", some "boom"⟩, some "p", none, some 0,
          .mutation, oC4b.req⟩]
    ∧ (runCall oC4b .mutation 0 [("0", none)] "p" 0).1 =
        .ok ⟨"p", none, .error ⟨.internalServerError, "boom", some "boom"⟩⟩ := by
  have h := claim_C4_amended oC4b .mutation 0 [("0", none)] "p" 0 rfl rfl
  exact ⟨rfl, h.1, h.2.1 rfl⟩

/-- A `responseMeta` hook that explicitly returns status 0. -/
def metaZero : ResponseMetaArgs → ResponseMetaResult :=
  fun _ => ⟨[], some 0⟩

/-- A plain successful request whose `responseMeta` hook returns an
explicit status 0. -/
def oC5 : Opts :=
  ⟨mkRouter cpNull, ⟨"POST", [], [], .undef⟩, "p", none, .ok 0, none,
   some metaZero, jpReject⟩

/-- Counterexample for C5.  The claim says an explicit status returned by
the `responseMeta` hook overrides the derived status unconditionally.
The override is guarded by a truthiness check (`if (meta.status)`), so
the explicitly returned status 0 is discarded: the response carries the
derived status 200, not 0. -/
theorem claim_C5_counterexample :
    (∀ a, metaZero a = ⟨[], some 0⟩)
    ∧ oC5.responseMeta = some metaZero
    ∧ (requestHandlerInner oC5).1 =
        .ok ⟨200, [("Content-Type", "application/json")],
          some (.single (.result .null))⟩ :=
  ⟨fun _ => rfl, rfl, rfl⟩

/-- Claim C5 (amended): for every non-HEAD request that yields a response
(single or batch, success or failure), when the `responseMeta` hook
returns an explicit NON-ZERO status it unconditionally overrides the
status derived from the envelopes (a returned status of 0 is treated as
absent by the truthiness check), and the hook's headers are assigned on
top of the default headers, the hook's value winning on any key collision
and the defaults surviving on the other keys. -/
theorem claim_C5_amended (o : Opts) {f : ResponseMetaArgs → ResponseMetaResult}
    {H : List (String × String)} {s : Nat} {r : HTTPResponse}
    (hm : o.req.method ≠ "HEAD")
    (hmeta : o.responseMeta = some f)
    (hf : ∀ a, f a = ⟨H, some s⟩)
    (hs : s ≠ 0)
    (hnd : (H.map Prod.fst).Nodup)
    (hr : (requestHandlerInner o).1 = .ok r) :
    r.status = s
    ∧ (∀ k v, (k, v) ∈ H → lookupHeader r.headers k = some v)
    ∧ (∀ k, (∀ q ∈ H, q.1 ≠ k) →
        lookupHeader r.headers k =
          lookupHeader [("Content-Type", "application/json")] k) := by
  obtain ⟨c, paths, body, errs, rfl⟩ := inner_ok_shape hm hr
  refine ⟨endResponse_status_override hmeta hf hs _ _ _ _ _, ?_, ?_⟩
  · intro k v hkv
    rw [endResponse_headers_meta hmeta hf]
    exact lookupHeader_fold_mem H _ k v hnd hkv
  · intro k hk
    rw [endResponse_headers_meta hmeta hf]
    exact lookupHeader_fold_not_mem H _ k hk

/-- A `responseMeta` hook returning status 418 and a Content-Type
override (spec section 8, property 8). -/
def metaTea : ResponseMetaArgs → ResponseMetaResult :=
  fun _ => ⟨[("Content-Type", "text/plain"), ("x-extra", "1")], some 418⟩

/-- A plain successful request carrying the `metaTea` hook. -/
def oC5w : Opts :=
  ⟨mkRouter cpNull, ⟨"POST", [], [], .undef⟩, "p", none, .ok 0, none,
   some metaTea, jpReject⟩

/-- Witness for the amended C5: the 418 override wins, the hook's
Content-Type beats the default on collision, and a fresh hook header is
present. -/
theorem claim_C5_witness :
    oC5w.req.method ≠ "HEAD"
    ∧ oC5w.responseMeta = some metaTea
    ∧ (∀ a, metaTea a = ⟨[("Content-Type", "text/plain"), ("x-extra", "1")],
        some 418⟩)
    ∧ (requestHandlerInner oC5w).1 =
        .ok ⟨418, [("Content-Type", "text/plain"), ("x-extra", "1")],
          some (.single (.result .null))⟩
    ∧ (⟨418, [("Content-Type", "text/plain"), ("x-extra", "1")],
          some (.single (.result .null))⟩ : HTTPResponse).status = 418
    ∧ lookupHeader [("Content-Type", "text/plain"), ("x-extra", "1")]
        "Content-Type" = some "text/plain" := by
  have h := claim_C5_amended oC5w (by decide) rfl (fun a => rfl) (by decide)
    (by decide) rfl
  exact ⟨by decide, rfl, fun a => rfl, rfl, h.1,
    h.2.1 "Content-Type" "text/plain" (by decide)⟩
